import Mathlib

/-!
Shallow embedding of the see_scripts catalog sync client
(files see_client.py, wlf_client.py, cvt_oa.py of the repository).

HTTP interactions are modelled by a `Remote` oracle that describes the
responses of the SEEweb service, and every client function returns,
alongside its result, the ordered list of HTTP `Event`s it issued.
Python exceptions are modelled by `Except Error`; Python dictionaries
are mutable, so a function that may mutate a dictionary argument
explicitly returns the value the caller observes after the call.
External collaborators (the openalea package manager and the wlformat
conversion library) are passed as explicit function parameters.
-/

namespace SeeScripts

/-- Port dictionary of a wlformat node definition: in the definitions
handled by wlf_client both the name key and the interface key are
present. -/
structure Port where
  name : String
  interface : String
deriving DecidableEq, Repr

/-- RO definition dictionary for an interface, workflow node or
workflow. A dictionary key that may be absent is an `Option`; unused
keys of a given kind of RO keep their default. -/
structure RODef where
  id : Option String := none
  name : String := ""
  inputs : List Port := []
  outputs : List Port := []
deriving DecidableEq, Repr

/-- Data record of a provenance definition: dictionary with keys id,
type, value and name. -/
structure DataDef where
  id : String
  type : String
  value : String
  name : String := ""
deriving DecidableEq, Repr

/-- Execution port of a provenance record: dictionary whose data key
is either an id or None. -/
structure PPort where
  data : Option String
deriving DecidableEq, Repr

/-- Single execution of a provenance record. -/
structure PExec where
  inputs : List PPort := []
  outputs : List PPort := []
deriving DecidableEq, Repr

/-- Provenance definition dictionary as consumed by upload_prov. -/
structure ProvDef where
  id : Option String := none
  name : String := ""
  workflow : String := ""
  executions : List PExec := []
  data : List DataDef := []
deriving DecidableEq, Repr

/-- Dictionary with a single name key, as built by dict(name=...) for
containers in cvt_oa.main. -/
structure NamedDef where
  name : String
deriving DecidableEq, Repr

/-- JSON payload posted to the register endpoint. -/
inductive RegPayload
  | rodef (d : RODef)
  | datadef (d : DataDef)
  | provdef (d : ProvDef)
  | named (name : String)
deriving DecidableEq, Repr

/-- HTTP request issued to the SEEweb service, in the order the client
issues them. -/
inductive Event
  | login (user : String)
  | searchUid (uid : String)
  | searchName (rtype name : String)
  | searchQuery (q : String)
  | registerRo (rtype : String) (payload : RegPayload)
  | registerData (iid : String) (payload : RegPayload)
  | removeRo (uid : String)
  | connectRo (src tgt ltype : String)
  | disconnectRo (src tgt ltype : String)
  | uploadFile (pth : String)
deriving DecidableEq, Repr

/-- Python exception raised by the client: either a UserWarning with a
message, a KeyError, or a TypeError from subscripting None. -/
inductive Error
  | userWarning (msg : String)
  | keyError (msg : String)
  | typeError
deriving DecidableEq, Repr

/-- Oracle describing the responses of the remote SEEweb service:
status codes of each endpoint, the JSON body returned by searches, and
the id granted to a registered payload. -/
structure Remote where
  loginStatus : Nat := 200
  searchByUid : String → Option RODef := fun _ => none
  searchByName : String → String → List String := fun _ _ => []
  searchStatus : Nat := 200
  searchRes : String → List String := fun _ => []
  registerStatus : Nat := 200
  registerOk : Bool := true
  registerMsg : String := ""
  registerRes : String → RegPayload → String := fun _ _ => ""
  removeStatus : Nat := 200
  connectStatus : Nat := 200
  disconnectStatus : Nat := 200
  uploadStatus : Nat := 200

/-- Local in-memory store of cvt_oa: a dictionary from id to a pair
(kind, ro definition), newest binding first. -/
abbrev Store := List (String × (String × RODef))

/-- Duck typing of the dictionaries accepted by already_registered and
register_ro: how to read their id key and serialize them. -/
class RoDict (α : Type) where
  getId : α → Option String
  payload : α → RegPayload

instance roDictRODef : RoDict RODef := ⟨fun d => d.id, RegPayload.rodef⟩

instance roDictDataDef : RoDict DataDef := ⟨fun d => some d.id, RegPayload.datadef⟩

instance roDictProvDef : RoDict ProvDef := ⟨fun d => d.id, RegPayload.provdef⟩

instance roDictNamedDef : RoDict NamedDef := ⟨fun _ => none, fun d => RegPayload.named d.name⟩

/-- Model of see_client.log_to_see: post the credentials to the login
endpoint and raise UserWarning unless the status is 200. -/
def log_to_see (rem : Remote) (user _password : String) :
    Except Error Unit × List Event :=
  if rem.loginStatus ≠ 200 then
    (.error (.userWarning "unable to connect to SEEweb"), [.login user])
  else
    (.ok (), [.login user])

/-- Model of see_client.log_to_see_environ: credentials come from the
environment (passed here as arguments); a UserWarning raised by
log_to_see is caught and turned into None. -/
def log_to_see_environ (rem : Remote) (user pwd : String) :
    Except Error (Option Unit) × List Event :=
  match log_to_see rem user pwd with
  | (.ok u, ev) => (.ok (some u), ev)
  | (.error (.userWarning _), ev) => (.ok none, ev)
  | (.error e, ev) => (.error e, ev)

/-- Model of see_client.get_ro_def: search by uid and return the JSON
body, None when the service answers null. No status check is
performed by the source. -/
def get_ro_def (rem : Remote) (uid : String) : Option RODef × List Event :=
  (rem.searchByUid uid, [.searchUid uid])

/-- Model of see_client.get_by_name: search by (type, name) and return
the list of matching ids. No status check is performed by the
source. -/
def get_by_name (rem : Remote) (rtype name : String) :
    List String × List Event :=
  (rem.searchByName rtype name, [.searchName rtype name])

/-- Model of see_client.get_single_by_name: search by (type, name);
raise KeyError on zero matches, UserWarning on more than one match,
and return the single id otherwise. -/
def get_single_by_name (rem : Remote) (rtype name : String) :
    Except Error String × List Event :=
  match rem.searchByName rtype name with
  | [] => (.error (.keyError ("No Ro found with name " ++ name)),
           [.searchName rtype name])
  | [uid] => (.ok uid, [.searchName rtype name])
  | _ :: _ :: _ => (.error (.userWarning ("Too many ROs share name " ++ name)),
                    [.searchName rtype name])

/-- Model of see_client.search: perform a raw query (modelled as an
opaque string) and raise UserWarning unless the status is 200. -/
def search (rem : Remote) (query : String) :
    Except Error (List String) × List Event :=
  if rem.searchStatus ≠ 200 then
    (.error (.userWarning "unable to perform search RO on SEEweb"),
     [.searchQuery query])
  else
    (.ok (rem.searchRes query), [.searchQuery query])

/-- Model of see_client.upload_file: post the file and raise
UserWarning unless the status is 200. -/
def upload_file (rem : Remote) (pth : String) :
    Except Error Unit × List Event :=
  if rem.uploadStatus ≠ 200 then
    (.error (.userWarning "unable to upload package on SEEweb"),
     [.uploadFile pth])
  else
    (.ok (), [.uploadFile pth])

/-- Model of see_client.register_ro: serialize a copy of ro_def and
post it. The second component of the result is the dictionary the
caller observes after the call. Raise UserWarning on a non-200 status
or a non-success answer, and return the granted id otherwise. -/
def register_ro {α : Type} [RoDict α] (rem : Remote) (ro_type : String)
    (ro_def : α) : Except Error String × α × List Event :=
  if rem.registerStatus ≠ 200 then
    (.error (.userWarning "unable to register RO on SEEweb"), ro_def,
     [.registerRo ro_type (RoDict.payload ro_def)])
  else if rem.registerOk then
    (.ok (rem.registerRes ro_type (RoDict.payload ro_def)), ro_def,
     [.registerRo ro_type (RoDict.payload ro_def)])
  else
    (.error (.userWarning rem.registerMsg), ro_def,
     [.registerRo ro_type (RoDict.payload ro_def)])

/-- Model of see_client.register_data: resolve the interface name
first, then serialize a copy of ro_def and post it together with the
interface id. The second component of the result is the dictionary the
caller observes after the call. -/
def register_data {α : Type} [RoDict α] (rem : Remote) (interface : String)
    (ro_def : α) : Except Error String × α × List Event :=
  match get_single_by_name rem "interface" interface with
  | (.error e, ev) => (.error e, ro_def, ev)
  | (.ok iid, ev) =>
    if rem.registerStatus ≠ 200 then
      (.error (.userWarning "unable to register RO on SEEweb"), ro_def,
       ev ++ [.registerData iid (RoDict.payload ro_def)])
    else if rem.registerOk then
      (.ok (rem.registerRes iid (RoDict.payload ro_def)), ro_def,
       ev ++ [.registerData iid (RoDict.payload ro_def)])
    else
      (.error (.userWarning rem.registerMsg), ro_def,
       ev ++ [.registerData iid (RoDict.payload ro_def)])

/-- Model of see_client.remove_ro: post the removal and raise
UserWarning unless the status is 200. -/
def remove_ro (rem : Remote) (uid : String) (_recursive : Bool) :
    Except Error Unit × List Event :=
  if rem.removeStatus ≠ 200 then
    (.error (.userWarning "unable to register RO on SEEweb"), [.removeRo uid])
  else
    (.ok (), [.removeRo uid])

/-- Model of see_client.connect: post the link and raise UserWarning
unless the status is 200. -/
def connect (rem : Remote) (src tgt link_type : String) :
    Except Error Unit × List Event :=
  if rem.connectStatus ≠ 200 then
    (.error (.userWarning "unable to register RO on SEEweb"),
     [.connectRo src tgt link_type])
  else
    (.ok (), [.connectRo src tgt link_type])

/-- Model of see_client.disconnect: post the link removal and raise
UserWarning unless the status is 200. -/
def disconnect (rem : Remote) (src tgt link_type : String) :
    Except Error Unit × List Event :=
  if rem.disconnectStatus ≠ 200 then
    (.error (.userWarning "unable to register RO on SEEweb"),
     [.disconnectRo src tgt link_type])
  else
    (.ok (), [.disconnectRo src tgt link_type])

/-- Model of wlf_client.already_registered: read the id key of the
definition (a KeyError from a missing id key is caught and skips the
whole check), search the remote catalog by uid, and when it is found
either remove it (overwrite set) or report True (overwrite unset). -/
def already_registered {α : Type} [RoDict α] (rem : Remote) (ro_def : α)
    (overwrite : Bool) : Except Error Bool × List Event :=
  match RoDict.getId ro_def with
  | none => (.ok false, [])
  | some uid =>
    match get_ro_def rem uid with
    | (some _, ev) =>
      if overwrite then
        match remove_ro rem uid false with
        | (.ok _, ev2) => (.ok false, ev ++ ev2)
        | (.error e, ev2) => (.error e, ev ++ ev2)
      else
        (.ok true, ev)
    | (none, ev) => (.ok false, ev)

/-- Model of wlf_client.upload_interface: refuse when an RO with the
same id is already registered, then register the interface and link it
to its container when one is given. -/
def upload_interface (rem : Remote) (idef : RODef) (cid : Option String)
    (overwrite : Bool) : Except Error String × List Event :=
  match already_registered rem idef overwrite with
  | (.error e, ev) => (.error e, ev)
  | (.ok true, ev) =>
    (.error (.userWarning "RO with same id already in SEE platform"), ev)
  | (.ok false, ev) =>
    match register_ro rem "interface" idef with
    | (.error e, _, ev2) => (.error e, ev ++ ev2)
    | (.ok uid, _, ev2) =>
      match cid with
      | none => (.ok uid, ev ++ ev2)
      | some c =>
        match connect rem c uid "contains" with
        | (.error e, ev3) => (.error e, ev ++ ev2 ++ ev3)
        | (.ok _, ev3) => (.ok uid, ev ++ ev2 ++ ev3)

/-- Helper of wlf_client.upload_node: loop checking that the interface
of every port of the node is registered on the platform. -/
def check_node_interfaces (rem : Remote) : List Port →
    Except Error Unit × List Event
  | [] => (.ok (), [])
  | p :: rest =>
    match get_ro_def rem p.interface with
    | (none, ev) =>
      (.error (.userWarning ("Interface " ++ p.interface ++
        " used by the node is not registered")), ev)
    | (some _, ev) =>
      match check_node_interfaces rem rest with
      | (r, ev2) => (r, ev ++ ev2)

/-- Model of wlf_client.upload_node: refuse when an RO with the same
id is already registered, check that input and output port names are
unique (via the size of the set of names), check that every port
interface is registered, then register the node and link it to its
container when one is given. -/
def upload_node (rem : Remote) (ndef : RODef) (cid : Option String)
    (overwrite : Bool) : Except Error String × List Event :=
  match already_registered rem ndef overwrite with
  | (.error e, ev) => (.error e, ev)
  | (.ok true, ev) =>
    (.error (.userWarning "RO with same id already in SEE platform"), ev)
  | (.ok false, ev) =>
    if (ndef.inputs.map Port.name).dedup.length < ndef.inputs.length then
      (.error (.userWarning "input names are not unique"), ev)
    else if (ndef.outputs.map Port.name).dedup.length < ndef.outputs.length then
      (.error (.userWarning "output names are not unique"), ev)
    else
      match check_node_interfaces rem (ndef.inputs ++ ndef.outputs) with
      | (.error e, ev2) => (.error e, ev ++ ev2)
      | (.ok _, ev2) =>
        match register_ro rem "workflow_node" ndef with
        | (.error e, _, ev3) => (.error e, ev ++ ev2 ++ ev3)
        | (.ok uid, _, ev3) =>
          match cid with
          | none => (.ok uid, ev ++ ev2 ++ ev3)
          | some c =>
            match connect rem c uid "contains" with
            | (.error e, ev4) => (.error e, ev ++ ev2 ++ ev3 ++ ev4)
            | (.ok _, ev4) => (.ok uid, ev ++ ev2 ++ ev3 ++ ev4)

/-- Model of wlf_client.get_data_def: first data record of the
provenance with the given id, KeyError when there is none. -/
def get_data_def (pdef : ProvDef) (did : String) : Except Error DataDef :=
  match pdef.data.find? (fun d => d.id == did) with
  | some d => .ok d
  | none => .error (.keyError "no data recorded with this id")

/-- In-place mutation performed by upload_prov on the data list: the
first record whose id matches gets its type key set to ref and its
value key set to the freshly registered id. -/
def set_ref (did newid : String) : List DataDef → List DataDef
  | [] => []
  | d :: rest =>
    if d.id == did then
      { d with type := "ref", value := newid } :: rest
    else
      d :: set_ref did newid rest

/-- Loop of wlf_client.upload_prov over the input data of the
executions: every record of type ref must point at a registered RO;
the ids of those ROs are collected. -/
def check_input_data (rem : Remote) (pdef : ProvDef) : List String →
    Except Error (List String) × List Event
  | [] => (.ok [], [])
  | did :: rest =>
    match get_data_def pdef did with
    | .error e => (.error e, [])
    | .ok ddata =>
      if ddata.type == "ref" then
        match get_ro_def rem ddata.value with
        | (none, ev) =>
          (.error (.userWarning ("data " ++ ddata.value ++
            " used as input is not registered on SEE")), ev)
        | (some _, ev) =>
          match check_input_data rem pdef rest with
          | (.error e, ev2) => (.error e, ev ++ ev2)
          | (.ok refs, ev2) => (.ok (ddata.value :: refs), ev ++ ev2)
      else
        check_input_data rem pdef rest

/-- Loop of wlf_client.upload_prov over the enumerated output data:
each record is registered as a fresh RO under a derived name, the
record inside the provenance is mutated in place to a ref pointing at
the new id, and the new RO is linked to the container when one is
given. The second component of the result is the provenance
dictionary the caller observes after the loop. -/
def upload_outputs (rem : Remote) (cid : Option String) (provname : String) :
    List (Nat × String) → ProvDef → Except Error Unit × ProvDef × List Event
  | [], pdef => (.ok (), pdef, [])
  | (i, did) :: rest, pdef =>
    match get_data_def pdef did with
    | .error e => (.error e, pdef, [])
    | .ok ddef =>
      match register_ro rem "ro"
          ({ ddef with name := provname ++ "_" ++ toString i }) with
      | (.error e, _, ev) => (.error e, pdef, ev)
      | (.ok newid, _, ev) =>
        match cid with
        | some c =>
          match connect rem c newid "contains" with
          | (.error e, ev2) =>
            (.error e, { pdef with data := set_ref did newid pdef.data },
             ev ++ ev2)
          | (.ok _, ev2) =>
            match upload_outputs rem cid provname rest
                ({ pdef with data := set_ref did newid pdef.data }) with
            | (r, pdef3, ev3) => (r, pdef3, ev ++ ev2 ++ ev3)
        | none =>
          match upload_outputs rem cid provname rest
              ({ pdef with data := set_ref did newid pdef.data }) with
          | (r, pdef3, ev3) => (r, pdef3, ev ++ ev3)

/-- Loop connecting one RO to each id of a list with a fixed link
type, as done by upload_prov for consume and produce edges. -/
def connect_list (rem : Remote) (uid ltype : String) : List String →
    Except Error Unit × List Event
  | [] => (.ok (), [])
  | did :: rest =>
    match connect rem uid did ltype with
    | (.error e, ev) => (.error e, ev)
    | (.ok _, ev) =>
      match connect_list rem uid ltype rest with
      | (r, ev2) => (r, ev ++ ev2)

/-- Set of data ids consumed by the executions of a provenance record,
in encounter order without repetition. -/
def inputData (pdef : ProvDef) : List String :=
  (pdef.executions.flatMap (fun e => e.inputs.filterMap PPort.data)).dedup

/-- Set of data ids produced by the executions of a provenance record,
in encounter order without repetition. -/
def outputData (pdef : ProvDef) : List String :=
  (pdef.executions.flatMap (fun e => e.outputs.filterMap PPort.data)).dedup

/-- Model of wlf_client.upload_prov: refuse when an RO with the same
id is already registered, check the associated workflow and the input
ref data, upload the output data as fresh ROs while mutating the
provenance in place, register the mutated provenance, then link it to
the consumed and produced data and to its container. The second
component of the result is the provenance dictionary the caller
observes after the call. -/
def upload_prov (rem : Remote) (pdef : ProvDef) (cid : Option String)
    (overwrite : Bool) : Except Error String × ProvDef × List Event :=
  match already_registered rem pdef overwrite with
  | (.error e, ev) => (.error e, pdef, ev)
  | (.ok true, ev) =>
    (.error (.userWarning "RO with same id already in SEE platform"),
     pdef, ev)
  | (.ok false, ev) =>
    match get_ro_def rem pdef.workflow with
    | (none, ev1) =>
      (.error (.userWarning ("Workflow " ++ pdef.workflow ++
        " associated with this provenance has not been registered")),
       pdef, ev ++ ev1)
    | (some _, ev1) =>
      match check_input_data rem pdef (inputData pdef) with
      | (.error e, ev2) => (.error e, pdef, ev ++ ev1 ++ ev2)
      | (.ok input_ref, ev2) =>
        match upload_outputs rem cid pdef.name (outputData pdef).enum pdef with
        | (.error e, pdef2, ev3) =>
          (.error e, pdef2, ev ++ ev1 ++ ev2 ++ ev3)
        | (.ok _, pdef2, ev3) =>
          match register_ro rem "workflow_prov" pdef2 with
          | (.error e, _, ev4) =>
            (.error e, pdef2, ev ++ ev1 ++ ev2 ++ ev3 ++ ev4)
          | (.ok uid, _, ev4) =>
            match connect_list rem uid "consume" input_ref with
            | (.error e, ev5) =>
              (.error e, pdef2, ev ++ ev1 ++ ev2 ++ ev3 ++ ev4 ++ ev5)
            | (.ok _, ev5) =>
              match connect_list rem uid "produce" (outputData pdef) with
              | (.error e, ev6) =>
                (.error e, pdef2,
                 ev ++ ev1 ++ ev2 ++ ev3 ++ ev4 ++ ev5 ++ ev6)
              | (.ok _, ev6) =>
                match cid with
                | none =>
                  (.ok uid, pdef2,
                   ev ++ ev1 ++ ev2 ++ ev3 ++ ev4 ++ ev5 ++ ev6)
                | some c =>
                  match connect rem c uid "contains" with
                  | (.error e, ev7) =>
                    (.error e, pdef2,
                     ev ++ ev1 ++ ev2 ++ ev3 ++ ev4 ++ ev5 ++ ev6 ++ ev7)
                  | (.ok _, ev7) =>
                    (.ok uid, pdef2,
                     ev ++ ev1 ++ ev2 ++ ev3 ++ ev4 ++ ev5 ++ ev6 ++ ev7)

/-- Port dictionary of an openalea node factory: both the name key and
the interface key may be absent. -/
structure OAPort where
  name : Option String := none
  interface : Option String := none
deriving DecidableEq, Repr

/-- Openalea factory as read by cvt_oa: a NodeFactory, DataFactory or
CompositeNodeFactory. A factory without a uid attribute has uid none
(reading it raises AttributeError in the source, which check_fac
catches); elt_factory is the dictionary of node descriptors of a
composite factory, a pair (package name, factory name) per node. -/
structure Factory where
  uid : Option String := none
  package_name : String := ""
  name : String := ""
  inputs : Option (List OAPort) := none
  outputs : Option (List OAPort) := none
  elt_factory : List (String × (String × String)) := []
deriving DecidableEq, Repr

/-- Model of cvt_oa.check_fac: skip the factory when its uid is
already in the local store; when the uid is already registered
remotely, remove it first (overwrite set) or skip (overwrite unset).
A factory without a uid passes the check without any call. -/
def check_fac (rem : Remote) (fac : Factory) (store : Store)
    (overwrite : Bool) : Except Error Bool × List Event :=
  match fac.uid with
  | none => (.ok true, [])
  | some uid =>
    if (store.lookup uid).isSome then
      (.ok false, [])
    else
      match get_ro_def rem uid with
      | (some _, ev) =>
        if overwrite then
          match remove_ro rem uid false with
          | (.ok _, ev2) => (.ok true, ev ++ ev2)
          | (.error e, ev2) => (.error e, ev ++ ev2)
        else
          (.ok false, ev)
      | (none, ev) => (.ok true, ev)

/-- Interface name normalization of cvt_oa.export_node: when the
printed interface contains an opening parenthesis, keep the stripped
part before it. -/
def normalize_iname (iname : String) : String :=
  if iname.contains '(' then
    ((iname.splitOn "(").headD iname).trim
  else
    iname

/-- Port name defaulting of cvt_oa.export_node: the i-th port without
a name key receives the name tag + i (tag being in or out). -/
def assign_port_names (tag : String) (ports : List OAPort) : List OAPort :=
  ports.enum.map (fun ip =>
    match ip.2.name with
    | some _ => ip.2
    | none => { ip.2 with name := some (tag ++ toString ip.1) })

/-- Resolution step shared by cvt_oa.export_node and
cvt_oa.export_data for one interface name: look the name up in the
local store through the wlformat lookup (passed as the parameter
lookupI); on a miss, query the remote catalog by (interface, name),
raise one UserWarning unless exactly one id matches, fetch the
definition of that id and record it in the store under its id with
kind data. -/
def resolve_interface (lookupI : Store → String → Option RODef)
    (rem : Remote) (pkg nfname iname : String) (store : Store) :
    Except Error (RODef × Store) × List Event :=
  match lookupI store iname with
  | some idef => (.ok (idef, store), [])
  | none =>
    match get_by_name rem "interface" iname with
    | (res, ev1) =>
      match res with
      | [uid] =>
        match get_ro_def rem uid with
        | (some idef, ev2) =>
          match idef.id with
          | some iid =>
            (.ok (idef, (iid, ("data", idef)) :: store), ev1 ++ ev2)
          | none => (.error (.keyError "id"), ev1 ++ ev2)
        | (none, ev2) => (.error .typeError, ev1 ++ ev2)
      | _ =>
        (.error (.userWarning ("Interface " ++ iname ++ " used by node " ++
          pkg ++ ":" ++ nfname ++ " is not defined anywhere")), ev1)

/-- Loop of cvt_oa.export_node resolving the interface of every port,
after defaulting a missing interface key to any and normalizing the
printed name. -/
def resolve_ports (lookupI : Store → String → Option RODef) (rem : Remote)
    (pkg nfname : String) : List OAPort → Store →
    Except Error Store × List Event
  | [], store => (.ok store, [])
  | p :: rest, store =>
    match resolve_interface lookupI rem pkg nfname
        (normalize_iname (p.interface.getD "any")) store with
    | (.error e, ev) => (.error e, ev)
    | (.ok (_, store2), ev) =>
      match resolve_ports lookupI rem pkg nfname rest store2 with
      | (r, ev2) => (r, ev ++ ev2)

/-- Model of cvt_oa.export_node: None when check_fac skips the
factory; otherwise default missing port names, raise UserWarning when
input or output names are not unique (the source uses the input
message for both checks), resolve the interface of every port, and
convert the factory through the wlformat converter (passed as the
parameter cvt). -/
def export_node (lookupI : Store → String → Option RODef)
    (cvt : Factory → Store → String → RODef) (rem : Remote) (nf : Factory)
    (store : Store) (overwrite : Bool) :
    Except Error (Option RODef × Store) × List Event :=
  match check_fac rem nf store overwrite with
  | (.error e, ev) => (.error e, ev)
  | (.ok false, ev) => (.ok (none, store), ev)
  | (.ok true, ev) =>
    let inputs := assign_port_names "in" (nf.inputs.getD [])
    if ((inputs.map (fun p => p.name.getD "")).dedup.length <
        inputs.length) then
      (.error (.userWarning "input names are not unique"), ev)
    else
      let outputs := assign_port_names "out" (nf.outputs.getD [])
      if ((outputs.map (fun p => p.name.getD "")).dedup.length <
          outputs.length) then
        (.error (.userWarning "input names are not unique"), ev)
      else
        match resolve_ports lookupI rem nf.package_name nf.name
            (inputs ++ outputs) store with
        | (.error e, ev2) => (.error e, ev ++ ev2)
        | (.ok store2, ev2) =>
          let nf2 := { nf with inputs := some inputs, outputs := some outputs }
          (.ok (some (cvt nf2 store2 nf.package_name), store2), ev ++ ev2)

/-- Model of cvt_oa.export_data: None when check_fac skips the
factory; otherwise resolve the interfaces any and IData the same way
export_node resolves port interfaces, then convert the factory through
the wlformat data converter (passed as the parameter cvtd). -/
def export_data (lookupI : Store → String → Option RODef)
    (cvtd : Factory → Store → String → RODef) (rem : Remote) (nf : Factory)
    (store : Store) (overwrite : Bool) :
    Except Error (Option RODef × Store) × List Event :=
  match check_fac rem nf store overwrite with
  | (.error e, ev) => (.error e, ev)
  | (.ok false, ev) => (.ok (none, store), ev)
  | (.ok true, ev) =>
    match resolve_interface lookupI rem nf.package_name nf.name "any"
        store with
    | (.error e, ev1) => (.error e, ev ++ ev1)
    | (.ok (_, store1), ev1) =>
      match resolve_interface lookupI rem nf.package_name nf.name "IData"
          store1 with
      | (.error e, ev2) => (.error e, ev ++ ev1 ++ ev2)
      | (.ok (_, store2), ev2) =>
        (.ok (some (cvtd nf store2 nf.package_name), store2),
         ev ++ ev1 ++ ev2)

/-- Loop of cvt_oa.extract_nodes over a list of node factories: export
each one, record a non-None definition in the store under its id with
kind node, and collect the pair (package name, definition). -/
def export_node_list (lookupI : Store → String → Option RODef)
    (cvt : Factory → Store → String → RODef) (rem : Remote)
    (overwrite : Bool) : List Factory → Store →
    Except Error (List (String × RODef) × Store) × List Event
  | [], store => (.ok ([], store), [])
  | nf :: rest, store =>
    match export_node lookupI cvt rem nf store overwrite with
    | (.error e, ev) => (.error e, ev)
    | (.ok (none, store1), ev) =>
      match export_node_list lookupI cvt rem overwrite rest store1 with
      | (r, ev2) => (r, ev ++ ev2)
    | (.ok (some ndef, store1), ev) =>
      match ndef.id with
      | none => (.error (.keyError "id"), ev)
      | some nid =>
        match export_node_list lookupI cvt rem overwrite rest
            ((nid, ("node", ndef)) :: store1) with
        | (.error e, ev2) => (.error e, ev ++ ev2)
        | (.ok (ros, store2), ev2) =>
          (.ok ((nf.package_name, ndef) :: ros, store2), ev ++ ev2)

/-- Loop of cvt_oa.extract_nodes over the data factories: export each
one through export_data, record a non-None definition in the store
under its id with kind node, and collect the pair (package name,
definition). -/
def export_data_list (lookupI : Store → String → Option RODef)
    (cvtd : Factory → Store → String → RODef) (rem : Remote)
    (overwrite : Bool) : List Factory → Store →
    Except Error (List (String × RODef) × Store) × List Event
  | [], store => (.ok ([], store), [])
  | nf :: rest, store =>
    match export_data lookupI cvtd rem nf store overwrite with
    | (.error e, ev) => (.error e, ev)
    | (.ok (none, store1), ev) =>
      match export_data_list lookupI cvtd rem overwrite rest store1 with
      | (r, ev2) => (r, ev ++ ev2)
    | (.ok (some ndef, store1), ev) =>
      match ndef.id with
      | none => (.error (.keyError "id"), ev)
      | some nid =>
        match export_data_list lookupI cvtd rem overwrite rest
            ((nid, ("node", ndef)) :: store1) with
        | (.error e, ev2) => (.error e, ev ++ ev2)
        | (.ok (ros, store2), ev2) =>
          (.ok ((nf.package_name, ndef) :: ros, store2), ev ++ ev2)

/-- Filter of cvt_oa.extract_nodes on composite factories: only those
with at least one input or output port are exported as nodes. -/
def has_ports (nf : Factory) : Bool :=
  0 < (nf.inputs.getD []).length || 0 < (nf.outputs.getD []).length

/-- Model of cvt_oa.extract_nodes: export the plain node factories,
then the data factories, then the composite factories that have ports,
threading the store and collecting every produced definition. -/
def extract_nodes (lookupI : Store → String → Option RODef)
    (cvt cvtd : Factory → Store → String → RODef) (rem : Remote)
    (nfs dfs cfs : List Factory) (store : Store) (overwrite : Bool) :
    Except Error (List (String × RODef) × Store) × List Event :=
  match export_node_list lookupI cvt rem overwrite nfs store with
  | (.error e, ev) => (.error e, ev)
  | (.ok (ros1, store1), ev) =>
    match export_data_list lookupI cvtd rem overwrite dfs store1 with
    | (.error e, ev2) => (.error e, ev ++ ev2)
    | (.ok (ros2, store2), ev2) =>
      match export_node_list lookupI cvt rem overwrite
          (cfs.filter has_ports) store2 with
      | (.error e, ev3) => (.error e, ev ++ ev2 ++ ev3)
      | (.ok (ros3, store3), ev3) =>
        (.ok (ros1 ++ ros2 ++ ros3, store3), ev ++ ev2 ++ ev3)

/-- Resolution step of cvt_oa.export_workflow for one node descriptor
(a pair package name, factory name): look the descriptor up in the
local store through the wlformat lookup (passed as the parameter
lookupN); on a miss, query the remote catalog by (workflow_node,
printed descriptor), raise one UserWarning unless exactly one id
matches, fetch the definition of that id and record it in the store
under its id with kind node. -/
def resolve_node (lookupN : Store → String × String → Option RODef)
    (rem : Remote) (wname : String) (nd : String × String) (store : Store) :
    Except Error (RODef × Store) × List Event :=
  match lookupN store nd with
  | some ndef => (.ok (ndef, store), [])
  | none =>
    match get_by_name rem "workflow_node" (nd.1 ++ ": " ++ nd.2) with
    | (res, ev1) =>
      match res with
      | [uid] =>
        match get_ro_def rem uid with
        | (some ndef, ev2) =>
          match ndef.id with
          | some nid =>
            (.ok (ndef, (nid, ("node", ndef)) :: store), ev1 ++ ev2)
          | none => (.error (.keyError "id"), ev1 ++ ev2)
        | (none, ev2) => (.error .typeError, ev1 ++ ev2)
      | _ =>
        (.error (.userWarning ("Node " ++ (nd.1 ++ ": " ++ nd.2) ++
          " used by workflow " ++ wname ++ " is not defined anywhere")), ev1)

/-- Loop of cvt_oa.export_workflow making sure every node descriptor
used by the workflow is resolvable. -/
def resolve_nodes (lookupN : Store → String × String → Option RODef)
    (rem : Remote) (wname : String) : List (String × String) → Store →
    Except Error Store × List Event
  | [], store => (.ok store, [])
  | nd :: rest, store =>
    match resolve_node lookupN rem wname nd store with
    | (.error e, ev) => (.error e, ev)
    | (.ok (_, store2), ev) =>
      match resolve_nodes lookupN rem wname rest store2 with
      | (r, ev2) => (r, ev ++ ev2)

/-- Model of cvt_oa.export_workflow: None when check_fac skips the
factory; otherwise resolve every node descriptor of the composite
factory and convert it through the wlformat workflow converter
(passed as the parameter cvtw). -/
def export_workflow (lookupN : Store → String × String → Option RODef)
    (cvtw : Factory → Store → RODef) (rem : Remote) (cnf : Factory)
    (store : Store) (overwrite : Bool) :
    Except Error (Option RODef × Store) × List Event :=
  match check_fac rem cnf store overwrite with
  | (.error e, ev) => (.error e, ev)
  | (.ok false, ev) => (.ok (none, store), ev)
  | (.ok true, ev) =>
    match resolve_nodes lookupN rem cnf.name (cnf.elt_factory.map Prod.snd)
        store with
    | (.error e, ev2) => (.error e, ev ++ ev2)
    | (.ok store2, ev2) =>
      (.ok (some (cvtw cnf store2), store2), ev ++ ev2)

/-- Model of cvt_oa.extract_workflows: export every composite factory
as a workflow, record a non-None definition in the store under its id
with kind workflow, and collect the pair (package name,
definition). -/
def extract_workflows (lookupN : Store → String × String → Option RODef)
    (cvtw : Factory → Store → RODef) (rem : Remote) (overwrite : Bool) :
    List Factory → Store →
    Except Error (List (String × RODef) × Store) × List Event
  | [], store => (.ok ([], store), [])
  | cnf :: rest, store =>
    match export_workflow lookupN cvtw rem cnf store overwrite with
    | (.error e, ev) => (.error e, ev)
    | (.ok (none, store1), ev) =>
      match extract_workflows lookupN cvtw rem overwrite rest store1 with
      | (r, ev2) => (r, ev ++ ev2)
    | (.ok (some wdef, store1), ev) =>
      match wdef.id with
      | none => (.error (.keyError "id"), ev)
      | some wid =>
        match extract_workflows lookupN cvtw rem overwrite rest
            ((wid, ("workflow", wdef)) :: store1) with
        | (.error e, ev2) => (.error e, ev ++ ev2)
        | (.ok (ros, store2), ev2) =>
          (.ok ((cnf.package_name, wdef) :: ros, store2), ev ++ ev2)

/-- Registration loop of cvt_oa.main for one kind of RO: register each
collected definition under its package container and immediately link
the container to the fresh id with a contains edge. -/
def register_section (rem : Remote) (pkg_cont : String → String)
    (rtype : String) : List (String × RODef) →
    Except Error Unit × List Event
  | [] => (.ok (), [])
  | (pkgname, d) :: rest =>
    match register_ro rem rtype d with
    | (.error e, _, ev) => (.error e, ev)
    | (.ok uid, _, ev) =>
      match connect rem (pkg_cont pkgname) uid "contains" with
      | (.error e, ev2) => (.error e, ev ++ ev2)
      | (.ok _, ev2) =>
        match register_section rem pkg_cont rtype rest with
        | (r, ev3) => (r, ev ++ ev2 ++ ev3)

/-- Registration phase of cvt_oa.main (after the containers are set
up): register all interfaces, then all nodes, then all workflows, in
the order they were extracted. -/
def main_register (rem : Remote) (pkg_cont : String → String)
    (rois rons rows : List (String × RODef)) :
    Except Error Unit × List Event :=
  match register_section rem pkg_cont "interface" rois with
  | (.error e, ev) => (.error e, ev)
  | (.ok _, ev) =>
    match register_section rem pkg_cont "workflow_node" rons with
    | (.error e, ev2) => (.error e, ev ++ ev2)
    | (.ok _, ev2) =>
      match register_section rem pkg_cont "workflow" rows with
      | (r, ev3) => (r, ev ++ ev2 ++ ev3)

/-- Pair of events that cvt_oa.main issues for one extracted
definition: its registration, immediately followed by the single
contains edge from its package container to the granted id. -/
def regPat (rem : Remote) (pkg_cont : String → String) (rtype : String)
    (item : String × RODef) : List Event :=
  [Event.registerRo rtype (RegPayload.rodef item.2),
   Event.connectRo (pkg_cont item.1)
     (rem.registerRes rtype (RegPayload.rodef item.2)) "contains"]

instance exceptDecEq {ε α : Type} [DecidableEq ε] [DecidableEq α] :
    DecidableEq (Except ε α) := fun a b =>
  match a, b with
  | .error e, .error e2 => decidable_of_iff (e = e2) (by simp)
  | .error _, .ok _ => isFalse (fun hc => Except.noConfusion hc)
  | .ok _, .error _ => isFalse (fun hc => Except.noConfusion hc)
  | .ok x, .ok y => decidable_of_iff (x = y) (by simp)

/-- Predicate for an HTTP 2xx success status code. -/
def is2xx (s : Nat) : Prop := 200 ≤ s ∧ s ≤ 299

instance (s : Nat) : Decidable (is2xx s) := by
  unfold is2xx
  infer_instance

/-- Shape invariant of the local store entries written by cvt_oa: the
key is the id of the stored definition and the kind tag is one of
data, node, workflow. -/
def store_entry_ok (e : String × (String × RODef)) : Prop :=
  e.2.2.id = some e.1 ∧ (e.2.1 = "data" ∨ e.2.1 = "node" ∨ e.2.1 = "workflow")

instance (e : String × (String × RODef)) : Decidable (store_entry_ok e) := by
  unfold store_entry_ok
  infer_instance

/-- Every entry of the second store is either an entry the first store
already had or a well-shaped entry written during the run. -/
def store_extends (s s2 : Store) : Prop :=
  ∀ e ∈ s2, e ∈ s ∨ store_entry_ok e

instance (s s2 : Store) : Decidable (store_extends s s2) := by
  unfold store_extends
  infer_instance

/-- Remote catalog with the default responses: empty searches, every
endpoint answering 200. -/
def remDefault : Remote := {}

/-- Remote catalog on which every name search returns two matches. -/
def remTwo : Remote := { searchByName := fun _ _ => ["a", "b"] }

/-- Remote catalog whose login endpoint answers 500. -/
def rem500 : Remote := { loginStatus := 500 }

/-- Sample interface definition with id u1. -/
def idef1 : RODef := { id := some "u1", name := "IInt" }

/-- Remote catalog that already holds idef1 under its id. -/
def remHit : Remote :=
  { searchByUid := fun uid => if uid = "u1" then some idef1 else none,
    registerRes := fun _ _ => "fresh1" }

/-- Remote catalog granting the id rt-id to a registration of type
rt. -/
def remReg : Remote := { registerRes := fun rt _ => rt ++ "-id" }

/-- Node definition with two input ports sharing the name a. -/
def ndefDup : RODef :=
  { id := none, inputs := [⟨"a", "i1"⟩, ⟨"a", "i2"⟩] }

/-- Openalea factory with two unnamed-interface input ports sharing
the name a. -/
def nfDup : Factory :=
  { inputs := some [⟨some "a", none⟩, ⟨some "a", none⟩] }

/-- Sample node definition produced by the converter stub. -/
def nodeDef1 : RODef := { id := some "n1", name := "node1" }

/-- Converter stub standing for wlformat convert_node and
convert_data_node. -/
def cvtConst : Factory → Store → String → RODef := fun _ _ _ => nodeDef1

/-- Sample workflow definition produced by the converter stub. -/
def wdef1 : RODef := { id := some "w1", name := "wf1" }

/-- Converter stub standing for wlformat convert_workflow. -/
def cvtwConst : Factory → Store → RODef := fun _ _ => wdef1

/-- Factory without uid and without ports. -/
def nfPlain : Factory := { package_name := "pkg", name := "n" }

/-- Composite factory without uid and without nodes. -/
def nfComposite : Factory := { package_name := "pkg", name := "w" }

/-- Local-store lookup stub that finds idef1 under the name IInt. -/
def lookupIHit : Store → String → Option RODef :=
  fun _ nm => if nm = "IInt" then some idef1 else none

/-- Local-store lookup stub that finds nodeDef1 under the descriptor
(pkg, n). -/
def lookupNHit : Store → String × String → Option RODef :=
  fun _ nd => if nd = ("pkg", "n") then some nodeDef1 else none

/-- Local-store lookup stub that never finds an interface. -/
def lookupINone : Store → String → Option RODef := fun _ _ => none

/-- Local-store lookup stub that never finds a node. -/
def lookupNNone : Store → String × String → Option RODef := fun _ _ => none

/-- Provenance record with one execution producing the local data
d1. -/
def provSample : ProvDef :=
  { name := "prov", workflow := "wf",
    executions := [{ inputs := [], outputs := [⟨some "d1"⟩] }],
    data := [{ id := "d1", type := "plain", value := "v" }] }

/-- Remote catalog that knows the workflow wf and grants the id rid to
every registration. -/
def remProv : Remote :=
  { searchByUid := fun uid => if uid = "wf" then some {} else none,
    registerRes := fun _ _ => "rid" }

/-- Remote catalog on which every endpoint answers 500. -/
def remFail : Remote :=
  { loginStatus := 500, searchStatus := 500, registerStatus := 500,
    removeStatus := 500, connectStatus := 500, disconnectStatus := 500,
    uploadStatus := 500 }

/-- Remote catalog whose search endpoint answers 500 yet still serves
a JSON body: a definition for every uid and the single id a for every
name. -/
def remSearch500 : Remote :=
  { searchStatus := 500, searchByUid := fun _ => some idef1,
    searchByName := fun _ _ => ["a"] }

/-- State of provSample after a successful upload_prov against
remProv: the produced data record became a ref to the registered
id. -/
def provAfter : ProvDef :=
  { name := "prov", workflow := "wf",
    executions := [{ inputs := [], outputs := [⟨some "d1"⟩] }],
    data := [{ id := "d1", type := "ref", value := "rid" }] }

/-- C9: already_registered on a definition whose dictionary has no id
key returns False without performing any remote call (in particular no
removal), for either value of the overwrite flag: the KeyError of the
id access is caught and the existence check is skipped. -/
theorem c9_missing_id_skips {α : Type} [RoDict α] (rem : Remote)
    (ro_def : α) (overwrite : Bool) (h : RoDict.getId ro_def = none) :
    already_registered rem ro_def overwrite = (.ok false, []) := by
  unfold already_registered
  rw [h]

theorem c9_missing_id_skips_witness :
    already_registered remDefault ({ id := none } : RODef) true =
      (.ok false, []) ∧
    already_registered remDefault ({ id := none } : RODef) false =
      (.ok false, []) :=
  ⟨c9_missing_id_skips remDefault _ true rfl,
   c9_missing_id_skips remDefault _ false rfl⟩

/-- C2: registering an interface whose id already exists remotely is,
with the overwrite flag unset, a refusal that neither removes nor
registers anything (the only call is the existence search); with the
overwrite flag set, the remote object is removed exactly once and the
object is then registered fresh from its unchanged definition, with no
merge. -/
theorem c2_overwrite_semantics (rem : Remote) (idef : RODef) (uid : String)
    (d : RODef) (hid : idef.id = some uid)
    (hfound : rem.searchByUid uid = some d) (hrm : rem.removeStatus = 200)
    (hreg : rem.registerStatus = 200) (hok : rem.registerOk = true) :
    upload_interface rem idef none false =
      (.error (.userWarning "RO with same id already in SEE platform"),
       [.searchUid uid]) ∧
    upload_interface rem idef none true =
      (.ok (rem.registerRes "interface" (RegPayload.rodef idef)),
       [.searchUid uid, .removeRo uid,
        .registerRo "interface" (RegPayload.rodef idef)]) := by
  have hgid : RoDict.getId idef = some uid := hid
  constructor <;>
    simp [upload_interface, already_registered, get_ro_def, remove_ro,
      register_ro, RoDict.payload, RoDict.getId, roDictRODef, hgid, hid,
      hfound, hrm, hreg, hok]

theorem c2_overwrite_semantics_witness :
    upload_interface remHit idef1 none false =
      (.error (.userWarning "RO with same id already in SEE platform"),
       [.searchUid "u1"]) ∧
    upload_interface remHit idef1 none true =
      (.ok "fresh1",
       [.searchUid "u1", .removeRo "u1",
        .registerRo "interface" (RegPayload.rodef idef1)]) :=
  c2_overwrite_semantics remHit idef1 "u1" idef1 rfl (by decide) rfl rfl rfl

/-- Helper: a status that is not a 2xx success status is in particular
not 200. -/
theorem ne_200_of_not_is2xx {s : Nat} (h : ¬ is2xx s) : s ≠ 200 := by
  intro hs
  exact h (by simp [is2xx, hs])

/-- C6 counterexample: the search calls a run actually issues
(get_ro_def, get_by_name, get_single_by_name) perform no status check,
so on a remote whose search endpoint answers 500 but still serves a
JSON body they return normally and raise nothing, refuting the claim
that every HTTP call raises on a non-2xx status. -/
theorem c6_counterexample :
    (¬ is2xx remSearch500.searchStatus) ∧
    get_ro_def remSearch500 "u1" = (some idef1, [.searchUid "u1"]) ∧
    get_by_name remSearch500 "interface" "IInt" =
      (["a"], [.searchName "interface" "IInt"]) ∧
    get_single_by_name remSearch500 "interface" "IInt" =
      (.ok "a", [.searchName "interface" "IInt"]) := by
  refine ⟨by decide, ?_, ?_, ?_⟩ <;> decide

/-- C6 amended: the seven status-checking calls (login, the raw search
wrapper, register, remove, connect, disconnect, upload) raise a
UserWarning immediately on any status that is not a 2xx success (they
test status against 200), with no retry and no recovery; the search
fetch helpers get_ro_def, get_by_name and get_single_by_name perform
no status check at all and parse the response body regardless of the
status. -/
theorem c6_status_check_scope (rem : Remote)
    (u p q pth uid src tgt lt rt rtype2 name2 : String)
    (d : RODef) (rec : Bool)
    (h1 : ¬ is2xx rem.loginStatus) (h2 : ¬ is2xx rem.searchStatus)
    (h3 : ¬ is2xx rem.registerStatus) (h4 : ¬ is2xx rem.removeStatus)
    (h5 : ¬ is2xx rem.connectStatus) (h6 : ¬ is2xx rem.disconnectStatus)
    (h7 : ¬ is2xx rem.uploadStatus) :
    (log_to_see rem u p).1 =
      .error (.userWarning "unable to connect to SEEweb") ∧
    (search rem q).1 =
      .error (.userWarning "unable to perform search RO on SEEweb") ∧
    (register_ro rem rt d).1 =
      .error (.userWarning "unable to register RO on SEEweb") ∧
    (remove_ro rem uid rec).1 =
      .error (.userWarning "unable to register RO on SEEweb") ∧
    (connect rem src tgt lt).1 =
      .error (.userWarning "unable to register RO on SEEweb") ∧
    (disconnect rem src tgt lt).1 =
      .error (.userWarning "unable to register RO on SEEweb") ∧
    (upload_file rem pth).1 =
      .error (.userWarning "unable to upload package on SEEweb") ∧
    get_ro_def rem uid = (rem.searchByUid uid, [.searchUid uid]) ∧
    get_by_name rem rtype2 name2 =
      (rem.searchByName rtype2 name2, [.searchName rtype2 name2]) ∧
    (∀ a, rem.searchByName rtype2 name2 = [a] →
      get_single_by_name rem rtype2 name2 =
        (.ok a, [.searchName rtype2 name2])) := by
  refine ⟨?_, ?_, ?_, ?_, ?_, ?_, ?_, rfl, rfl, ?_⟩
  · simp [log_to_see, ne_200_of_not_is2xx h1]
  · simp [search, ne_200_of_not_is2xx h2]
  · simp [register_ro, ne_200_of_not_is2xx h3]
  · simp [remove_ro, ne_200_of_not_is2xx h4]
  · simp [connect, ne_200_of_not_is2xx h5]
  · simp [disconnect, ne_200_of_not_is2xx h6]
  · simp [upload_file, ne_200_of_not_is2xx h7]
  · intro a ha
    unfold get_single_by_name
    rw [ha]

theorem c6_status_check_scope_witness :
    (¬ is2xx 500) ∧
    ((log_to_see remFail "u" "p").1 =
      .error (.userWarning "unable to connect to SEEweb") ∧
    (search remFail "q").1 =
      .error (.userWarning "unable to perform search RO on SEEweb") ∧
    (register_ro remFail "ro" ({} : RODef)).1 =
      .error (.userWarning "unable to register RO on SEEweb") ∧
    (remove_ro remFail "u1" false).1 =
      .error (.userWarning "unable to register RO on SEEweb") ∧
    (connect remFail "a" "b" "contains").1 =
      .error (.userWarning "unable to register RO on SEEweb") ∧
    (disconnect remFail "a" "b" "contains").1 =
      .error (.userWarning "unable to register RO on SEEweb") ∧
    (upload_file remFail "pth").1 =
      .error (.userWarning "unable to upload package on SEEweb") ∧
    get_ro_def remFail "u1" = (none, [.searchUid "u1"]) ∧
    get_by_name remFail "interface" "IInt" =
      ([], [.searchName "interface" "IInt"]) ∧
    (∀ a, remFail.searchByName "interface" "IInt" = [a] →
      get_single_by_name remFail "interface" "IInt" =
        (.ok a, [.searchName "interface" "IInt"]))) :=
  ⟨by decide,
   c6_status_check_scope remFail "u" "p" "q" "pth" "u1" "a" "b" "contains"
     "ro" "interface" "IInt" {} false (by decide) (by decide) (by decide)
     (by decide) (by decide) (by decide) (by decide)⟩

/-- C4 counterexample: in the export_node resolver, a remote search
that returns zero matches and one that returns two matches raise the
very same UserWarning, so the two failures are not distinguishable
errors as the claim states. -/
theorem c4_counterexample :
    (resolve_interface lookupINone remDefault "pkg" "nf" "IInt" []).1 =
      Except.error (.userWarning
        ("Interface IInt used by node pkg:nf is not defined anywhere")) ∧
    (resolve_interface lookupINone remTwo "pkg" "nf" "IInt" []).1 =
      Except.error (.userWarning
        ("Interface IInt used by node pkg:nf is not defined anywhere")) := by
  constructor <;> decide

/-- C4 amended: get_single_by_name distinguishes the two failures
(zero matches raise KeyError, more than one match raises UserWarning,
and the two error kinds differ); the export resolvers of cvt_oa
instead raise one identical UserWarning for any match count other than
one. -/
theorem c4_distinguishable_in_get_single (rem : Remote)
    (rtype name : String) :
    (rem.searchByName rtype name = [] →
      get_single_by_name rem rtype name =
        (.error (.keyError ("No Ro found with name " ++ name)),
         [.searchName rtype name])) ∧
    (∀ a b rest, rem.searchByName rtype name = a :: b :: rest →
      get_single_by_name rem rtype name =
        (.error (.userWarning ("Too many ROs share name " ++ name)),
         [.searchName rtype name])) ∧
    (∀ m m2, Error.keyError m ≠ Error.userWarning m2) := by
  refine ⟨?_, ?_, ?_⟩
  · intro h
    unfold get_single_by_name
    rw [h]
  · intro a b rest h
    unfold get_single_by_name
    rw [h]
  · intro m m2 h
    cases h

theorem c4_distinguishable_in_get_single_witness :
    get_single_by_name remDefault "interface" "IInt" =
      (.error (.keyError ("No Ro found with name " ++ "IInt")),
       [.searchName "interface" "IInt"]) ∧
    get_single_by_name remTwo "interface" "IInt" =
      (.error (.userWarning ("Too many ROs share name " ++ "IInt")),
       [.searchName "interface" "IInt"]) :=
  ⟨(c4_distinguishable_in_get_single remDefault "interface" "IInt").1 rfl,
   (c4_distinguishable_in_get_single remTwo "interface" "IInt").2.1
     "a" "b" [] rfl⟩

/-- C7 counterexample: a login answered with status 500 raises a
UserWarning inside log_to_see, and log_to_see_environ catches that
error and returns None normally, so it is not true that no raised
error is ever caught and that the first error terminates the run. -/
theorem c7_counterexample :
    (log_to_see rem500 "u" "p").1 =
      Except.error (.userWarning "unable to connect to SEEweb") ∧
    log_to_see_environ rem500 "u" "p" = (.ok none, [.login "u"]) := by
  constructor <;> rfl

/-- C7 amended: failure paths do not share one single error type, and
raised errors are not universally uncaught. Most paths raise a
UserWarning with a message, but KeyError is raised as well, by the
zero-match branch of get_single_by_name and by get_data_def on an
unknown data id (the two kinds are distinct); and several raised
errors are caught: log_to_see_environ catches the login UserWarning
and returns None, already_registered catches the KeyError of a missing
id key and reports not-registered, and check_fac catches the
AttributeError of a factory without uid and lets the export
proceed. -/
theorem c7_error_landscape {α : Type} [RoDict α] (rem : Remote)
    (u p rtype name did : String) (rodef : α) (ow ow2 : Bool)
    (nf : Factory) (store : Store) (pdef : ProvDef)
    (hl : rem.loginStatus ≠ 200) (hs : rem.searchByName rtype name = [])
    (hfind : pdef.data.find? (fun d => d.id == did) = none)
    (hid : RoDict.getId rodef = none) (huid : nf.uid = none) :
    (log_to_see rem u p).1 =
      .error (.userWarning "unable to connect to SEEweb") ∧
    log_to_see_environ rem u p = (.ok none, [.login u]) ∧
    (get_single_by_name rem rtype name).1 =
      .error (.keyError ("No Ro found with name " ++ name)) ∧
    get_data_def pdef did =
      .error (.keyError "no data recorded with this id") ∧
    (∀ m m2, Error.keyError m ≠ Error.userWarning m2) ∧
    already_registered rem rodef ow = (.ok false, []) ∧
    check_fac rem nf store ow2 = (.ok true, []) := by
  refine ⟨?_, ?_, ?_, ?_, ?_, ?_, ?_⟩
  · simp [log_to_see, hl]
  · simp [log_to_see_environ, log_to_see, hl]
  · unfold get_single_by_name
    rw [hs]
  · unfold get_data_def
    rw [hfind]
  · intro m m2 h
    cases h
  · unfold already_registered
    rw [hid]
  · unfold check_fac
    rw [huid]

theorem c7_error_landscape_witness :
    ((log_to_see rem500 "user" "pwd").1 =
      .error (.userWarning "unable to connect to SEEweb") ∧
    log_to_see_environ rem500 "user" "pwd" = (.ok none, [.login "user"]) ∧
    (get_single_by_name rem500 "interface" "IInt").1 =
      .error (.keyError ("No Ro found with name " ++ "IInt")) ∧
    get_data_def provSample "dX" =
      .error (.keyError "no data recorded with this id") ∧
    (∀ m m2, Error.keyError m ≠ Error.userWarning m2) ∧
    already_registered rem500 ({ id := none } : RODef) true =
      (.ok false, []) ∧
    check_fac rem500 nfPlain [] false = (.ok true, [])) :=
  c7_error_landscape rem500 "user" "pwd" "interface" "IInt" "dX"
    ({ id := none } : RODef) true false nfPlain [] provSample (by decide)
    (by decide) (by decide) (by decide) (by decide)

/-- Helper: on a local-store miss the interface resolver's first
issued call is the remote search by (interface, name). -/
theorem resolve_interface_miss_head (lI : Store → String → Option RODef)
    (rem : Remote) (pkg nfname nm : String) (st : Store)
    (h : lI st nm = none) :
    ∃ tr, (resolve_interface lI rem pkg nfname nm st).2 =
      Event.searchName "interface" nm :: tr := by
  unfold resolve_interface
  rw [h]
  simp only [get_by_name, get_ro_def]
  rcases rem.searchByName "interface" nm with _ | ⟨uid, _ | ⟨b, rest⟩⟩
  · exact ⟨[], rfl⟩
  · simp only []
    rcases rem.searchByUid uid with _ | idef
    · exact ⟨[.searchUid uid], rfl⟩
    · simp only []
      rcases idef.id with _ | iid
      · exact ⟨[.searchUid uid], rfl⟩
      · exact ⟨[.searchUid uid], rfl⟩
  · exact ⟨[], rfl⟩

/-- Helper: on a local-store miss the node resolver's first issued
call is the remote search by (workflow_node, printed descriptor). -/
theorem resolve_node_miss_head (lN : Store → String × String → Option RODef)
    (rem : Remote) (wname : String) (nd : String × String) (st : Store)
    (h : lN st nd = none) :
    ∃ tr, (resolve_node lN rem wname nd st).2 =
      Event.searchName "workflow_node" (nd.1 ++ ": " ++ nd.2) :: tr := by
  unfold resolve_node
  rw [h]
  simp only [get_by_name, get_ro_def]
  rcases rem.searchByName "workflow_node" (nd.1 ++ ": " ++ nd.2) with
    _ | ⟨uid, _ | ⟨b, rest⟩⟩
  · exact ⟨[], rfl⟩
  · simp only []
    rcases rem.searchByUid uid with _ | ndef
    · exact ⟨[.searchUid uid], rfl⟩
    · simp only []
      rcases ndef.id with _ | nid
      · exact ⟨[.searchUid uid], rfl⟩
      · exact ⟨[.searchUid uid], rfl⟩
  · exact ⟨[], rfl⟩

/-- C1: a reference resolution of export_node, export_data (interface
names) or export_workflow (node descriptors) that hits the local store
returns the stored definition unchanged and issues no remote call at
all; a remote query by (type, name) is the first call issued and only
happens on a local miss. -/
theorem c1_local_store_first (lookupI : Store → String → Option RODef)
    (lookupN : Store → String × String → Option RODef) (rem : Remote)
    (pkg nfname wname iname : String) (nd : String × String) (store : Store)
    (idef ndef : RODef) (hI : lookupI store iname = some idef)
    (hN : lookupN store nd = some ndef) :
    resolve_interface lookupI rem pkg nfname iname store =
      (.ok (idef, store), []) ∧
    resolve_node lookupN rem wname nd store = (.ok (ndef, store), []) ∧
    (∀ (lI : Store → String → Option RODef) (st : Store) (nm : String),
      lI st nm = none →
      ∃ tr, (resolve_interface lI rem pkg nfname nm st).2 =
        Event.searchName "interface" nm :: tr) ∧
    (∀ (lN : Store → String × String → Option RODef) (st : Store)
      (d2 : String × String), lN st d2 = none →
      ∃ tr, (resolve_node lN rem wname d2 st).2 =
        Event.searchName "workflow_node" (d2.1 ++ ": " ++ d2.2) :: tr) := by
  refine ⟨?_, ?_, ?_, ?_⟩
  · unfold resolve_interface
    rw [hI]
  · unfold resolve_node
    rw [hN]
  · intro lI st nm h
    exact resolve_interface_miss_head lI rem pkg nfname nm st h
  · intro lN st d2 h
    exact resolve_node_miss_head lN rem wname d2 st h

theorem c1_local_store_first_witness :
    resolve_interface lookupIHit remDefault "pkg" "n" "IInt" [] =
      (.ok (idef1, []), []) ∧
    resolve_node lookupNHit remDefault "w" ("pkg", "n") [] =
      (.ok (nodeDef1, []), []) :=
  ⟨(c1_local_store_first lookupIHit lookupNHit remDefault "pkg" "n" "w"
      "IInt" ("pkg", "n") [] idef1 nodeDef1 (by decide) (by decide)).1,
   (c1_local_store_first lookupIHit lookupNHit remDefault "pkg" "n" "w"
      "IInt" ("pkg", "n") [] idef1 nodeDef1 (by decide) (by decide)).2.1⟩

/-- Helper: when every registration succeeds and every connect
succeeds, the registration loop of cvt_oa.main emits, for each item in
order, its register event immediately followed by its single contains
event. -/
theorem register_section_trace (rem : Remote) (pc : String → String)
    (rt : String) (h200 : rem.registerStatus = 200)
    (hok : rem.registerOk = true) (hc : rem.connectStatus = 200) :
    ∀ ros : List (String × RODef),
      register_section rem pc rt ros =
        (.ok (), (ros.map (regPat rem pc rt)).flatten)
  | [] => by simp [register_section]
  | (pkg, d) :: rest => by
    simp [register_section, register_ro, connect, h200, hok, hc, regPat,
      RoDict.payload, roDictRODef,
      register_section_trace rem pc rt h200 hok hc rest]

/-- C3: in the registration phase of a full conversion run with a
responsive catalog, the calls are issued in the fixed order all
interfaces, then all nodes, then all composite workflows, and each
registration is immediately followed by exactly one contains link call
from the container of its package to the freshly granted id. -/
theorem c3_registration_order (rem : Remote) (pc : String → String)
    (rois rons rows : List (String × RODef))
    (h200 : rem.registerStatus = 200) (hok : rem.registerOk = true)
    (hc : rem.connectStatus = 200) :
    main_register rem pc rois rons rows =
      (.ok (), (rois.map (regPat rem pc "interface")).flatten ++
               (rons.map (regPat rem pc "workflow_node")).flatten ++
               (rows.map (regPat rem pc "workflow")).flatten) := by
  simp [main_register,
    register_section_trace rem pc "interface" h200 hok hc,
    register_section_trace rem pc "workflow_node" h200 hok hc,
    register_section_trace rem pc "workflow" h200 hok hc]

theorem c3_registration_order_witness :
    main_register remReg (fun _ => "cont") [("p", idef1)] [("p", nodeDef1)]
      [("p", wdef1)] =
      (.ok (), [.registerRo "interface" (.rodef idef1),
                .connectRo "cont" "interface-id" "contains",
                .registerRo "workflow_node" (.rodef nodeDef1),
                .connectRo "cont" "workflow_node-id" "contains",
                .registerRo "workflow" (.rodef wdef1),
                .connectRo "cont" "workflow-id" "contains"]) := by
  simpa using c3_registration_order remReg (fun _ => "cont") [("p", idef1)]
    [("p", nodeDef1)] [("p", wdef1)] rfl rfl rfl

/-- Helper: the set-size test used by the port-name checks triggers
exactly when the list of names has a repetition. -/
theorem dedup_length_lt_iff {α : Type} [DecidableEq α] (l : List α) :
    l.dedup.length < l.length ↔ ¬ l.Nodup := by
  constructor
  · intro hlt hn
    rw [List.dedup_eq_self.mpr hn] at hlt
    exact Nat.lt_irrefl _ hlt
  · intro hn
    rcases Nat.lt_or_ge l.dedup.length l.length with h1 | h1
    · exact h1
    · exact absurd (List.dedup_eq_self.mp
        (l.dedup_sublist.eq_of_length
          (Nat.le_antisymm l.dedup_sublist.length_le h1))) hn

/-- Helper: the existence check of wlf_client never issues a
registration call. -/
theorem already_registered_no_register {α : Type} [RoDict α] (rem : Remote)
    (d : α) (ow : Bool) (rt : String) (pl : RegPayload) :
    Event.registerRo rt pl ∉ (already_registered rem d ow).2 := by
  unfold already_registered
  rcases RoDict.getId d with _ | uid
  · simp
  · simp only [get_ro_def]
    rcases rem.searchByUid uid with _ | d2
    · simp
    · simp only []
      rcases ow with _ | _
      · simp
      · simp only [remove_ro]
        by_cases hr : rem.removeStatus = 200 <;> simp [hr]

/-- Helper: the existence check of cvt_oa never issues a registration
call. -/
theorem check_fac_no_register (rem : Remote) (nf : Factory) (store : Store)
    (ow : Bool) (rt : String) (pl : RegPayload) :
    Event.registerRo rt pl ∉ (check_fac rem nf store ow).2 := by
  unfold check_fac
  rcases nf.uid with _ | uid
  · simp
  · simp only []
    by_cases hl : (store.lookup uid).isSome
    · simp [hl]
    · rw [if_neg hl]
      simp only [get_ro_def]
      rcases rem.searchByUid uid with _ | d2
      · simp
      · simp only []
        rcases ow with _ | _
        · simp
        · simp only [remove_ro]
          by_cases hr : rem.removeStatus = 200 <;> simp [hr]

/-- C5: uploading (wlf_client.upload_node) or exporting
(cvt_oa.export_node) a node whose input port names or output port
names are not pairwise distinct raises an error, and no registration
call is issued for the node. For export_node the factory is assumed
to pass the prior existence check, which issues no registration
either. -/
theorem c5_duplicate_port_names (rem : Remote) (ndef : RODef)
    (cid : Option String) (ow : Bool)
    (lookupI : Store → String → Option RODef)
    (cvt : Factory → Store → String → RODef) (nf : Factory) (store : Store)
    (evc : List Event)
    (hdupU : ¬ (ndef.inputs.map Port.name).Nodup ∨
             ¬ (ndef.outputs.map Port.name).Nodup)
    (hfac : check_fac rem nf store ow = (.ok true, evc))
    (hdupE : ¬ ((assign_port_names "in" (nf.inputs.getD [])).map
                (fun p => p.name.getD "")).Nodup ∨
             ¬ ((assign_port_names "out" (nf.outputs.getD [])).map
                (fun p => p.name.getD "")).Nodup) :
    ((∃ e, (upload_node rem ndef cid ow).1 = .error e) ∧
     ∀ rt pl, Event.registerRo rt pl ∉ (upload_node rem ndef cid ow).2) ∧
    ((∃ e, (export_node lookupI cvt rem nf store ow).1 = .error e) ∧
     ∀ rt pl,
       Event.registerRo rt pl ∉ (export_node lookupI cvt rem nf store ow).2) := by
  constructor
  · have hnr : ∀ rt pl,
        Event.registerRo rt pl ∉ (already_registered rem ndef ow).2 :=
      fun rt pl => already_registered_no_register rem ndef ow rt pl
    unfold upload_node
    rcases har : already_registered rem ndef ow with ⟨r, ev⟩
    rw [har] at hnr
    rcases r with e | b
    · exact ⟨⟨e, rfl⟩, hnr⟩
    · rcases b with _ | _
      · simp only []
        by_cases hin :
            (ndef.inputs.map Port.name).dedup.length < ndef.inputs.length
        · rw [if_pos hin]
          exact ⟨⟨_, rfl⟩, hnr⟩
        · rw [if_neg hin]
          have hout :
              (ndef.outputs.map Port.name).dedup.length <
                ndef.outputs.length := by
            rcases hdupU with hd | hd
            · exact absurd ((dedup_length_lt_iff _).mpr hd)
                (by simpa [List.length_map] using hin)
            · simpa [List.length_map] using (dedup_length_lt_iff _).mpr hd
          rw [if_pos hout]
          exact ⟨⟨_, rfl⟩, hnr⟩
      · exact ⟨⟨_, rfl⟩, hnr⟩
  · have hnr : ∀ rt pl, Event.registerRo rt pl ∉ evc := by
      have := fun rt pl => check_fac_no_register rem nf store ow rt pl
      rw [hfac] at this
      exact this
    unfold export_node
    rw [hfac]
    simp only []
    by_cases hin :
        ((assign_port_names "in" (nf.inputs.getD [])).map
          (fun p => p.name.getD "")).dedup.length <
        (assign_port_names "in" (nf.inputs.getD [])).length
    · rw [if_pos hin]
      exact ⟨⟨_, rfl⟩, hnr⟩
    · rw [if_neg hin]
      have hout :
          ((assign_port_names "out" (nf.outputs.getD [])).map
            (fun p => p.name.getD "")).dedup.length <
          (assign_port_names "out" (nf.outputs.getD [])).length := by
        rcases hdupE with hd | hd
        · exact absurd ((dedup_length_lt_iff _).mpr hd)
            (by simpa [List.length_map] using hin)
        · simpa [List.length_map] using (dedup_length_lt_iff _).mpr hd
      rw [if_pos hout]
      exact ⟨⟨_, rfl⟩, hnr⟩

theorem c5_duplicate_port_names_witness :
    (∃ e, (upload_node remDefault ndefDup none false).1 = .error e) ∧
    (∃ e, (export_node lookupINone cvtConst remDefault nfDup [] false).1 =
      .error e) :=
  ⟨(c5_duplicate_port_names remDefault ndefDup none false lookupINone
      cvtConst nfDup [] [] (by decide) (by decide) (by decide)).1.1,
   (c5_duplicate_port_names remDefault ndefDup none false lookupINone
      cvtConst nfDup [] [] (by decide) (by decide) (by decide)).2.1⟩

theorem store_extends_refl (s : Store) : store_extends s s :=
  fun _ he => Or.inl he

theorem store_extends_trans {s1 s2 s3 : Store}
    (h12 : store_extends s1 s2) (h23 : store_extends s2 s3) :
    store_extends s1 s3 := by
  intro e he
  rcases h23 e he with h | h
  · exact h12 e h
  · exact Or.inr h

theorem store_extends_cons {s1 s2 : Store} {e : String × (String × RODef)}
    (he : store_entry_ok e) (h : store_extends s1 s2) :
    store_extends s1 (e :: s2) := by
  intro x hx
  rcases List.mem_cons.mp hx with rfl | hx
  · exact Or.inr he
  · exact h x hx

/-- Helper: the interface resolution step only adds well-shaped
entries (key equal to the id of the fetched definition, kind data) to
the store. -/
theorem resolve_interface_store (lI : Store → String → Option RODef)
    (rem : Remote) (pkg nfname nm : String) {st st2 : Store} {d : RODef}
    {ev : List Event}
    (h : resolve_interface lI rem pkg nfname nm st = (.ok (d, st2), ev)) :
    store_extends st st2 := by
  unfold resolve_interface at h
  split at h
  · simp only [Prod.mk.injEq, Except.ok.injEq] at h
    rcases h with ⟨⟨_, h2⟩, _⟩
    rw [← h2]
    exact store_extends_refl st
  · simp only [get_by_name, get_ro_def] at h
    split at h
    · split at h
      · split at h
        · rename_i idef _ iid hid
          simp only [Prod.mk.injEq, Except.ok.injEq] at h
          rcases h with ⟨⟨_, h2⟩, _⟩
          rw [← h2]
          exact store_extends_cons ⟨hid, Or.inl rfl⟩ (store_extends_refl st)
        · simp at h
      · simp at h
    · simp at h

/-- Helper: the node resolution step only adds well-shaped entries
(key equal to the id of the fetched definition, kind node) to the
store. -/
theorem resolve_node_store (lN : Store → String × String → Option RODef)
    (rem : Remote) (wname : String) (nd : String × String)
    {st st2 : Store} {d : RODef} {ev : List Event}
    (h : resolve_node lN rem wname nd st = (.ok (d, st2), ev)) :
    store_extends st st2 := by
  unfold resolve_node at h
  split at h
  · simp only [Prod.mk.injEq, Except.ok.injEq] at h
    rcases h with ⟨⟨_, h2⟩, _⟩
    rw [← h2]
    exact store_extends_refl st
  · simp only [get_by_name, get_ro_def] at h
    split at h
    · split at h
      · split at h
        · rename_i ndef _ nid hid
          simp only [Prod.mk.injEq, Except.ok.injEq] at h
          rcases h with ⟨⟨_, h2⟩, _⟩
          rw [← h2]
          exact store_extends_cons ⟨hid, Or.inr (Or.inl rfl)⟩
            (store_extends_refl st)
        · simp at h
      · simp at h
    · simp at h

/-- Helper: the port resolution loop of export_node only adds
well-shaped entries to the store. -/
theorem resolve_ports_store (lI : Store → String → Option RODef)
    (rem : Remote) (pkg nfname : String) (ports : List OAPort) :
    ∀ {st st2 : Store} {ev : List Event},
      resolve_ports lI rem pkg nfname ports st = (.ok st2, ev) →
      store_extends st st2 := by
  induction ports with
  | nil =>
    intro st st2 ev h
    simp only [resolve_ports, Prod.mk.injEq, Except.ok.injEq] at h
    rw [← h.1]
    exact store_extends_refl st
  | cons p rest ih =>
    intro st st2 ev h
    unfold resolve_ports at h
    split at h
    · simp at h
    · rename_i x storeM evM heq
      rcases hrp : resolve_ports lI rem pkg nfname rest storeM with ⟨r, ev2⟩
      rw [hrp] at h
      rcases r with e | s
      · simp at h
      · simp only [Prod.mk.injEq, Except.ok.injEq] at h
        rcases h with ⟨h1, _⟩
        rw [h1] at hrp
        exact store_extends_trans
          (resolve_interface_store lI rem pkg nfname _ heq) (ih hrp)

/-- Helper: the check loop of export_workflow only adds well-shaped
entries to the store. -/
theorem resolve_nodes_store (lN : Store → String × String → Option RODef)
    (rem : Remote) (wname : String) (nds : List (String × String)) :
    ∀ {st st2 : Store} {ev : List Event},
      resolve_nodes lN rem wname nds st = (.ok st2, ev) →
      store_extends st st2 := by
  induction nds with
  | nil =>
    intro st st2 ev h
    simp only [resolve_nodes, Prod.mk.injEq, Except.ok.injEq] at h
    rw [← h.1]
    exact store_extends_refl st
  | cons nd rest ih =>
    intro st st2 ev h
    unfold resolve_nodes at h
    split at h
    · simp at h
    · rename_i x storeM evM heq
      rcases hrp : resolve_nodes lN rem wname rest storeM with ⟨r, ev2⟩
      rw [hrp] at h
      rcases r with e | s
      · simp at h
      · simp only [Prod.mk.injEq, Except.ok.injEq] at h
        rcases h with ⟨h1, _⟩
        rw [h1] at hrp
        exact store_extends_trans
          (resolve_node_store lN rem wname nd heq) (ih hrp)

/-- Helper: export_node only adds well-shaped entries to the store. -/
theorem export_node_store (lI : Store → String → Option RODef)
    (cvt : Factory → Store → String → RODef) (rem : Remote) (nf : Factory)
    {st st2 : Store} {o : Option RODef} {ev : List Event} {ow : Bool}
    (h : export_node lI cvt rem nf st ow = (.ok (o, st2), ev)) :
    store_extends st st2 := by
  unfold export_node at h
  split at h
  · simp at h
  · simp only [Prod.mk.injEq, Except.ok.injEq] at h
    rcases h with ⟨⟨_, h2⟩, _⟩
    rw [← h2]
    exact store_extends_refl st
  · simp only [] at h
    split at h
    · simp at h
    · split at h
      · simp at h
      · split at h
        · simp at h
        · rename_i heq
          simp only [Prod.mk.injEq, Except.ok.injEq] at h
          rcases h with ⟨⟨_, h2⟩, _⟩
          rw [← h2]
          exact resolve_ports_store lI rem nf.package_name nf.name _ heq

/-- Helper: export_data only adds well-shaped entries to the store. -/
theorem export_data_store (lI : Store → String → Option RODef)
    (cvtd : Factory → Store → String → RODef) (rem : Remote) (nf : Factory)
    {st st2 : Store} {o : Option RODef} {ev : List Event} {ow : Bool}
    (h : export_data lI cvtd rem nf st ow = (.ok (o, st2), ev)) :
    store_extends st st2 := by
  unfold export_data at h
  split at h
  · simp at h
  · simp only [Prod.mk.injEq, Except.ok.injEq] at h
    rcases h with ⟨⟨_, h2⟩, _⟩
    rw [← h2]
    exact store_extends_refl st
  · split at h
    · simp at h
    · rename_i x storeM evM heq
      split at h
      · simp at h
      · rename_i x2 storeM2 evM2 heq2
        simp only [Prod.mk.injEq, Except.ok.injEq] at h
        rcases h with ⟨⟨_, h2⟩, _⟩
        rw [← h2]
        exact store_extends_trans
          (resolve_interface_store lI rem nf.package_name nf.name _ heq)
          (resolve_interface_store lI rem nf.package_name nf.name _ heq2)

/-- Helper: the node extraction loop only adds well-shaped entries
(kind node under the definition id) to the store. -/
theorem export_node_list_store (lI : Store → String → Option RODef)
    (cvt : Factory → Store → String → RODef) (rem : Remote) (ow : Bool)
    (nfs : List Factory) :
    ∀ {st st2 : Store} {ros : List (String × RODef)} {ev : List Event},
      export_node_list lI cvt rem ow nfs st = (.ok (ros, st2), ev) →
      store_extends st st2 := by
  induction nfs with
  | nil =>
    intro st st2 ros ev h
    simp only [export_node_list, Prod.mk.injEq, Except.ok.injEq] at h
    rw [← h.1.2]
    exact store_extends_refl st
  | cons nf rest ih =>
    intro st st2 ros ev h
    unfold export_node_list at h
    split at h
    · simp at h
    · rename_i store1 ev1 heq
      rcases hrl : export_node_list lI cvt rem ow rest store1 with ⟨r, ev2⟩
      rw [hrl] at h
      rcases r with e | p
      · simp at h
      · rcases p with ⟨ros2, store2⟩
        simp only [Prod.mk.injEq, Except.ok.injEq] at h
        rcases h with ⟨⟨_, h2⟩, _⟩
        rw [h2] at hrl
        exact store_extends_trans (export_node_store lI cvt rem nf heq)
          (ih hrl)
    · rename_i ndef store1 ev1 heq
      split at h
      · simp at h
      · rename_i nid hid
        rcases hrl : export_node_list lI cvt rem ow rest
            ((nid, ("node", ndef)) :: store1) with ⟨r, ev2⟩
        rw [hrl] at h
        rcases r with e | p
        · simp at h
        · rcases p with ⟨ros2, store2⟩
          simp only [Prod.mk.injEq, Except.ok.injEq] at h
          rcases h with ⟨⟨_, h2⟩, _⟩
          rw [h2] at hrl
          exact store_extends_trans (export_node_store lI cvt rem nf heq)
            (store_extends_trans
              (store_extends_cons ⟨hid, Or.inr (Or.inl rfl)⟩
                (store_extends_refl store1))
              (ih hrl))

/-- Helper: the data extraction loop only adds well-shaped entries to
the store. -/
theorem export_data_list_store (lI : Store → String → Option RODef)
    (cvtd : Factory → Store → String → RODef) (rem : Remote) (ow : Bool)
    (dfs : List Factory) :
    ∀ {st st2 : Store} {ros : List (String × RODef)} {ev : List Event},
      export_data_list lI cvtd rem ow dfs st = (.ok (ros, st2), ev) →
      store_extends st st2 := by
  induction dfs with
  | nil =>
    intro st st2 ros ev h
    simp only [export_data_list, Prod.mk.injEq, Except.ok.injEq] at h
    rw [← h.1.2]
    exact store_extends_refl st
  | cons nf rest ih =>
    intro st st2 ros ev h
    unfold export_data_list at h
    split at h
    · simp at h
    · rename_i store1 ev1 heq
      rcases hrl : export_data_list lI cvtd rem ow rest store1 with ⟨r, ev2⟩
      rw [hrl] at h
      rcases r with e | p
      · simp at h
      · rcases p with ⟨ros2, store2⟩
        simp only [Prod.mk.injEq, Except.ok.injEq] at h
        rcases h with ⟨⟨_, h2⟩, _⟩
        rw [h2] at hrl
        exact store_extends_trans (export_data_store lI cvtd rem nf heq)
          (ih hrl)
    · rename_i ndef store1 ev1 heq
      split at h
      · simp at h
      · rename_i nid hid
        rcases hrl : export_data_list lI cvtd rem ow rest
            ((nid, ("node", ndef)) :: store1) with ⟨r, ev2⟩
        rw [hrl] at h
        rcases r with e | p
        · simp at h
        · rcases p with ⟨ros2, store2⟩
          simp only [Prod.mk.injEq, Except.ok.injEq] at h
          rcases h with ⟨⟨_, h2⟩, _⟩
          rw [h2] at hrl
          exact store_extends_trans (export_data_store lI cvtd rem nf heq)
            (store_extends_trans
              (store_extends_cons ⟨hid, Or.inr (Or.inl rfl)⟩
                (store_extends_refl store1))
              (ih hrl))

/-- Helper: export_workflow only adds well-shaped entries to the
store. -/
theorem export_workflow_store (lN : Store → String × String → Option RODef)
    (cvtw : Factory → Store → RODef) (rem : Remote) (cnf : Factory)
    {st st2 : Store} {o : Option RODef} {ev : List Event} {ow : Bool}
    (h : export_workflow lN cvtw rem cnf st ow = (.ok (o, st2), ev)) :
    store_extends st st2 := by
  unfold export_workflow at h
  split at h
  · simp at h
  · simp only [Prod.mk.injEq, Except.ok.injEq] at h
    rcases h with ⟨⟨_, h2⟩, _⟩
    rw [← h2]
    exact store_extends_refl st
  · split at h
    · simp at h
    · rename_i heq
      simp only [Prod.mk.injEq, Except.ok.injEq] at h
      rcases h with ⟨⟨_, h2⟩, _⟩
      rw [← h2]
      exact resolve_nodes_store lN rem cnf.name _ heq

/-- Helper: the workflow extraction loop only adds well-shaped entries
(kind workflow under the definition id) to the store. -/
theorem extract_workflows_store
    (lN : Store → String × String → Option RODef)
    (cvtw : Factory → Store → RODef) (rem : Remote) (ow : Bool)
    (wfs : List Factory) :
    ∀ {st st2 : Store} {ros : List (String × RODef)} {ev : List Event},
      extract_workflows lN cvtw rem ow wfs st = (.ok (ros, st2), ev) →
      store_extends st st2 := by
  induction wfs with
  | nil =>
    intro st st2 ros ev h
    simp only [extract_workflows, Prod.mk.injEq, Except.ok.injEq] at h
    rw [← h.1.2]
    exact store_extends_refl st
  | cons cnf rest ih =>
    intro st st2 ros ev h
    unfold extract_workflows at h
    split at h
    · simp at h
    · rename_i store1 ev1 heq
      rcases hrl : extract_workflows lN cvtw rem ow rest store1 with ⟨r, ev2⟩
      rw [hrl] at h
      rcases r with e | p
      · simp at h
      · rcases p with ⟨ros2, store2⟩
        simp only [Prod.mk.injEq, Except.ok.injEq] at h
        rcases h with ⟨⟨_, h2⟩, _⟩
        rw [h2] at hrl
        exact store_extends_trans (export_workflow_store lN cvtw rem cnf heq)
          (ih hrl)
    · rename_i wdef store1 ev1 heq
      split at h
      · simp at h
      · rename_i wid hid
        rcases hrl : extract_workflows lN cvtw rem ow rest
            ((wid, ("workflow", wdef)) :: store1) with ⟨r, ev2⟩
        rw [hrl] at h
        rcases r with e | p
        · simp at h
        · rcases p with ⟨ros2, store2⟩
          simp only [Prod.mk.injEq, Except.ok.injEq] at h
          rcases h with ⟨⟨_, h2⟩, _⟩
          rw [h2] at hrl
          exact store_extends_trans (export_workflow_store lN cvtw rem cnf heq)
            (store_extends_trans
              (store_extends_cons ⟨hid, Or.inr (Or.inr rfl)⟩
                (store_extends_refl store1))
              (ih hrl))

/-- C8: during an extraction run (extract_nodes over plain, data and
composite factories, and extract_workflows), every entry written to
the local store is a pair (kind, definition) stored under the id field
of the definition, with kind among data, node and workflow: the final
store extends the initial one only by such entries. The store is a
plain in-memory value threaded through the run. -/
theorem c8_store_entry_shape (lookupI : Store → String → Option RODef)
    (lookupN : Store → String × String → Option RODef)
    (cvt cvtd : Factory → Store → String → RODef)
    (cvtw : Factory → Store → RODef) (rem : Remote)
    (nfs dfs cfs wfs : List Factory) (store : Store) (ow : Bool)
    (rosA rosB : List (String × RODef)) (storeA storeB : Store)
    (trA trB : List Event)
    (h1 : extract_nodes lookupI cvt cvtd rem nfs dfs cfs store ow =
      (.ok (rosA, storeA), trA))
    (h2 : extract_workflows lookupN cvtw rem ow wfs store =
      (.ok (rosB, storeB), trB)) :
    store_extends store storeA ∧ store_extends store storeB := by
  constructor
  · unfold extract_nodes at h1
    split at h1
    · simp at h1
    · rename_i ros1 store1 ev1 heqA
      split at h1
      · simp at h1
      · rename_i ros2 store2 ev2 heqB
        split at h1
        · simp at h1
        · rename_i ros3 store3 ev3 heqC
          simp only [Prod.mk.injEq, Except.ok.injEq] at h1
          rcases h1 with ⟨⟨_, h12⟩, _⟩
          rw [h12] at heqC
          exact store_extends_trans
            (export_node_list_store lookupI cvt rem ow nfs heqA)
            (store_extends_trans
              (export_data_list_store lookupI cvtd rem ow dfs heqB)
              (export_node_list_store lookupI cvt rem ow
                (cfs.filter has_ports) heqC))
  · exact extract_workflows_store lookupN cvtw rem ow wfs h2

theorem c8_store_entry_shape_witness :
    extract_nodes lookupINone cvtConst cvtConst remDefault [nfPlain] [] []
      [] false =
      (.ok ([("pkg", nodeDef1)], [("n1", ("node", nodeDef1))]), []) ∧
    extract_workflows lookupNNone cvtwConst remDefault false [nfComposite]
      [] = (.ok ([("pkg", wdef1)], [("w1", ("workflow", wdef1))]), []) ∧
    store_extends [] [("n1", ("node", nodeDef1))] ∧
    store_extends [] [("w1", ("workflow", wdef1))] :=
  ⟨by decide, by decide,
   (c8_store_entry_shape lookupINone lookupNNone cvtConst cvtConst cvtwConst
      remDefault [nfPlain] [] [] [nfComposite] [] false [("pkg", nodeDef1)]
      [("pkg", wdef1)] [("n1", ("node", nodeDef1))]
      [("w1", ("workflow", wdef1))] [] [] (by decide) (by decide)).1,
   (c8_store_entry_shape lookupINone lookupNNone cvtConst cvtConst cvtwConst
      remDefault [nfPlain] [] [] [nfComposite] [] false [("pkg", nodeDef1)]
      [("pkg", wdef1)] [("n1", ("node", nodeDef1))]
      [("w1", ("workflow", wdef1))] [] [] (by decide) (by decide)).2⟩

/-- Helper: register_ro hands back the caller dictionary unchanged
(the source serializes a copy). -/
theorem register_ro_keeps_def {α : Type} [RoDict α] (rem : Remote)
    (rt : String) (d : α) : (register_ro rem rt d).2.1 = d := by
  unfold register_ro
  split
  · rfl
  · split <;> rfl

/-- Helper: register_data hands back the caller dictionary unchanged
(the source serializes a copy). -/
theorem register_data_keeps_def {α : Type} [RoDict α] (rem : Remote)
    (iname : String) (d : α) : (register_data rem iname d).2.1 = d := by
  unfold register_data
  split
  · rfl
  · split
    · rfl
    · split <;> rfl

/-- Helper: a successful register_ro returns the id the remote grants
to the serialized payload. -/
theorem register_ro_ok {α : Type} [RoDict α] {rem : Remote} {rt : String}
    {d : α} {uid : String} {x : α} {ev : List Event}
    (h : register_ro rem rt d = (.ok uid, x, ev)) :
    uid = rem.registerRes rt (RoDict.payload d) := by
  unfold register_ro at h
  split at h
  · simp at h
  · split at h
    · simp only [Prod.mk.injEq, Except.ok.injEq] at h
      exact h.1.symm
    · simp at h

/-- Helper: a data record found by get_data_def belongs to the data
list and carries the requested id. -/
theorem get_data_def_mem {pdef : ProvDef} {did : String} {d : DataDef}
    (h : get_data_def pdef did = .ok d) : d ∈ pdef.data ∧ d.id = did := by
  unfold get_data_def at h
  split at h
  · rename_i d2 hfind
    simp only [Except.ok.injEq] at h
    subst h
    refine ⟨List.mem_of_find?_eq_some hfind, ?_⟩
    have := List.find?_some hfind
    simpa using this
  · cases h

/-- Helper: set_ref keeps every record whose id differs from the
mutated one. -/
theorem set_ref_mem_of_ne {did v : String} {d : DataDef} :
    ∀ {l : List DataDef}, d ∈ l → d.id ≠ did → d ∈ set_ref did v l := by
  intro l
  induction l with
  | nil =>
    intro h _
    exact absurd h (List.not_mem_nil d)
  | cons a rest ih =>
    intro hmem hne
    unfold set_ref
    simp only [beq_iff_eq]
    by_cases ha : a.id = did
    · rw [if_pos ha]
      rcases List.mem_cons.mp hmem with rfl | hm
      · exact absurd ha hne
      · exact List.mem_cons_of_mem _ hm
    · rw [if_neg ha]
      rcases List.mem_cons.mp hmem with rfl | hm
      · exact List.mem_cons_self _ _
      · exact List.mem_cons_of_mem _ (ih hm hne)

/-- Helper: when some record carries the mutated id, set_ref produces
a record with that id whose type is ref and whose value is the new
id. -/
theorem set_ref_sets {did v : String} :
    ∀ {l : List DataDef}, (∃ d0 ∈ l, d0.id = did) →
      ∃ d ∈ set_ref did v l, d.id = did ∧ d.type = "ref" ∧ d.value = v := by
  intro l
  induction l with
  | nil =>
    intro hex
    rcases hex with ⟨d0, h, _⟩
    exact absurd h (List.not_mem_nil d0)
  | cons a rest ih =>
    intro hex
    rcases hex with ⟨d0, hmem, hid⟩
    unfold set_ref
    simp only [beq_iff_eq]
    by_cases ha : a.id = did
    · rw [if_pos ha]
      exact ⟨_, List.mem_cons_self _ _, ha, rfl, rfl⟩
    · rw [if_neg ha]
      have hex2 : ∃ d0 ∈ rest, d0.id = did := by
        rcases List.mem_cons.mp hmem with rfl | hm
        · exact absurd hid ha
        · exact ⟨d0, hm, hid⟩
      rcases ih hex2 with ⟨d, hd, hprops⟩
      exact ⟨d, List.mem_cons_of_mem _ hd, hprops⟩

/-- Helper: the output-upload loop leaves untouched every data record
whose id is not among the processed ids. -/
theorem upload_outputs_preserves (rem : Remote) (cid : Option String)
    (pn : String) :
    ∀ (l : List (Nat × String)) {pdef : ProvDef}
      {r : Except Error Unit} {pdef2 : ProvDef} {ev : List Event},
      upload_outputs rem cid pn l pdef = (r, pdef2, ev) →
      ∀ d ∈ pdef.data, d.id ∉ l.map Prod.snd → d ∈ pdef2.data := by
  intro l
  induction l with
  | nil =>
    intro pdef r pdef2 ev h d hd _
    simp only [upload_outputs, Prod.mk.injEq] at h
    rw [← h.2.1]
    exact hd
  | cons p rest ih =>
    rcases p with ⟨i, did⟩
    intro pdef r pdef2 ev h d hd hnot
    have hne : d.id ≠ did := by
      intro he
      exact hnot (by simp [he])
    have hnr : d.id ∉ rest.map Prod.snd := by
      intro hin
      exact hnot (by simp [hin])
    unfold upload_outputs at h
    split at h
    · simp only [Prod.mk.injEq] at h
      rw [← h.2.1]
      exact hd
    · rename_i ddef heqd
      rcases hreg : register_ro rem "ro"
          ({ ddef with name := pn ++ "_" ++ toString i }) with ⟨rr, rd, ev1⟩
      rw [hreg] at h
      rcases rr with e | newid
      · simp only [Prod.mk.injEq] at h
        rw [← h.2.1]
        exact hd
      · have hdm : d ∈ set_ref did newid pdef.data :=
          set_ref_mem_of_ne hd hne
        rcases cid with _ | c
        · simp only [] at h
          rcases hrec : upload_outputs rem none pn rest
              ({ pdef with data := set_ref did newid pdef.data }) with
            ⟨r3, pdef3, ev3⟩
          rw [hrec] at h
          simp only [Prod.mk.injEq] at h
          rw [← h.2.1]
          exact ih hrec d hdm hnr
        · simp only [] at h
          rcases hc : connect rem c newid "contains" with ⟨rc, ev2⟩
          rw [hc] at h
          rcases rc with e | u
          · simp only [Prod.mk.injEq] at h
            rw [← h.2.1]
            exact hdm
          · simp only [] at h
            rcases hrec : upload_outputs rem (some c) pn rest
                ({ pdef with data := set_ref did newid pdef.data }) with
              ⟨r3, pdef3, ev3⟩
            rw [hrec] at h
            simp only [Prod.mk.injEq] at h
            rw [← h.2.1]
            exact ih hrec d hdm hnr

/-- Helper: after a successful output-upload loop over pairwise
distinct ids, every processed id has a record set to a ref whose value
is an id granted by the remote register endpoint. -/
theorem upload_outputs_updates (rem : Remote) (cid : Option String)
    (pn : String) :
    ∀ (l : List (Nat × String)) {pdef pdef2 : ProvDef} {ev : List Event},
      upload_outputs rem cid pn l pdef = (.ok (), pdef2, ev) →
      (l.map Prod.snd).Nodup →
      ∀ did ∈ l.map Prod.snd,
        ∃ d ∈ pdef2.data, d.id = did ∧ d.type = "ref" ∧
          ∃ rdd, d.value = rem.registerRes "ro" (RegPayload.datadef rdd) := by
  intro l
  induction l with
  | nil =>
    intro pdef pdef2 ev h hnd did hdid
    exact absurd hdid (List.not_mem_nil did)
  | cons p rest ih =>
    rcases p with ⟨i, did0⟩
    intro pdef pdef2 ev h hnd did hdid
    simp only [List.map_cons] at hnd hdid
    have hnd0 : did0 ∉ rest.map Prod.snd := (List.nodup_cons.mp hnd).1
    have hndr : (rest.map Prod.snd).Nodup := (List.nodup_cons.mp hnd).2
    unfold upload_outputs at h
    split at h
    · simp at h
    · rename_i ddef heqd
      rcases hreg : register_ro rem "ro"
          ({ ddef with name := pn ++ "_" ++ toString i }) with ⟨rr, rd, ev1⟩
      rw [hreg] at h
      rcases rr with e | newid
      · simp at h
      · have hnew : newid = rem.registerRes "ro"
            (RegPayload.datadef ({ ddef with name := pn ++ "_" ++ toString i })) :=
          register_ro_ok hreg
        have hmem0 := get_data_def_mem heqd
        have hset : ∃ d ∈ set_ref did0 newid pdef.data,
            d.id = did0 ∧ d.type = "ref" ∧ d.value = newid :=
          set_ref_sets ⟨ddef, hmem0.1, hmem0.2⟩
        rcases cid with _ | c
        · simp only [] at h
          rcases hrec : upload_outputs rem none pn rest
              ({ pdef with data := set_ref did0 newid pdef.data }) with
            ⟨r3, pdef3, ev3⟩
          rw [hrec] at h
          rcases r3 with e3 | u3
          · simp at h
          · simp only [Prod.mk.injEq, Except.ok.injEq] at h
            rcases h with ⟨_, h2, _⟩
            rw [← h2]
            rcases List.mem_cons.mp hdid with rfl | hin
            · rcases hset with ⟨d, hdm, hd1, hd2, hd3⟩
              refine ⟨d, upload_outputs_preserves rem none pn rest hrec d hdm
                (by rw [hd1]; exact hnd0), hd1, hd2, ?_⟩
              exact ⟨_, by rw [hd3, hnew]⟩
            · exact ih hrec hndr did hin
        · simp only [] at h
          rcases hc : connect rem c newid "contains" with ⟨rc, ev2⟩
          rw [hc] at h
          rcases rc with e | u
          · simp at h
          · simp only [] at h
            rcases hrec : upload_outputs rem (some c) pn rest
                ({ pdef with data := set_ref did0 newid pdef.data }) with
              ⟨r3, pdef3, ev3⟩
            rw [hrec] at h
            rcases r3 with e3 | u3
            · simp at h
            · simp only [Prod.mk.injEq, Except.ok.injEq] at h
              rcases h with ⟨_, h2, _⟩
              rw [← h2]
              rcases List.mem_cons.mp hdid with rfl | hin
              · rcases hset with ⟨d, hdm, hd1, hd2, hd3⟩
                refine ⟨d, upload_outputs_preserves rem (some c) pn rest hrec
                  d hdm (by rw [hd1]; exact hnd0), hd1, hd2, ?_⟩
                exact ⟨_, by rw [hd3, hnew]⟩
              · exact ih hrec hndr did hin

/-- Helper: the second components of an enumeration are the original
list. -/
theorem enumFrom_map_snd {α : Type} :
    ∀ (n : Nat) (l : List α), (List.enumFrom n l).map Prod.snd = l
  | _, [] => rfl
  | n, a :: rest => by
    simp only [List.enumFrom, List.map_cons]
    rw [enumFrom_map_snd (n + 1) rest]

theorem enum_map_snd {α : Type} (l : List α) :
    l.enum.map Prod.snd = l :=
  enumFrom_map_snd 0 l

/-- C10: register_ro and register_data hand the caller dictionary back
unchanged (the source serializes a copy), whereas a successful
upload_prov mutates its pdef argument in place: in the dictionary the
caller observes afterwards, every output data id of the provenance has
its record set to type ref with its value replaced by the id the
remote register endpoint granted to the newly registered data RO. -/
theorem c10_register_copies_upload_prov_mutates (rem : Remote)
    (rt iname : String) (rd0 : RODef) (pdef pdef2 : ProvDef)
    (cid : Option String) (ow : Bool) (uid : String) (tr : List Event)
    (h : upload_prov rem pdef cid ow = (.ok uid, pdef2, tr)) :
    (register_ro rem rt rd0).2.1 = rd0 ∧
    (register_data rem iname rd0).2.1 = rd0 ∧
    ∀ did ∈ outputData pdef,
      ∃ d ∈ pdef2.data, d.id = did ∧ d.type = "ref" ∧
        ∃ rdd, d.value = rem.registerRes "ro" (RegPayload.datadef rdd) := by
  refine ⟨register_ro_keeps_def rem rt rd0,
    register_data_keeps_def rem iname rd0, ?_⟩
  unfold upload_prov at h
  split at h
  · simp at h
  · simp at h
  · split at h
    · simp at h
    · split at h
      · simp at h
      · rename_i input_ref ev2 heqI
        split at h
        · simp at h
        · rename_i pdefM ev3 heqO
          have hupd := upload_outputs_updates rem cid pdef.name
            ((outputData pdef).enum) heqO
            (by rw [enum_map_snd]; exact List.nodup_dedup _)
          rw [enum_map_snd] at hupd
          repeat' split at h
          all_goals simp at h
          all_goals obtain ⟨h1, h2, h3⟩ := h
          all_goals rw [← h2]
          all_goals exact hupd

theorem c10_register_copies_upload_prov_mutates_witness :
    upload_prov remProv provSample none false =
      (.ok "rid", provAfter,
       [.searchUid "wf",
        .registerRo "ro" (.datadef { id := "d1", type := "plain",
                                     value := "v", name := "prov_0" }),
        .registerRo "workflow_prov" (.provdef provAfter),
        .connectRo "rid" "d1" "produce"]) ∧
    ∀ did ∈ outputData provSample,
      ∃ d ∈ provAfter.data, d.id = did ∧ d.type = "ref" ∧
        ∃ rdd, d.value = remProv.registerRes "ro" (RegPayload.datadef rdd) :=
  ⟨by decide,
   (c10_register_copies_upload_prov_mutates remProv "ro" "IInt" {} provSample
      provAfter none false "rid"
      [.searchUid "wf",
       .registerRo "ro" (.datadef { id := "d1", type := "plain",
                                    value := "v", name := "prov_0" }),
       .registerRo "workflow_prov" (.provdef provAfter),
       .connectRo "rid" "d1" "produce"] (by decide)).2.2⟩

end SeeScripts
